import Mathlib

/-!
Shallow embedding of the `patina` Python library (Option/Result sum types,
closure-based `Ref`, and a `HashMap` with an Entry API wrapping a `dict`).

Conventions of the embedding:
* A Python exception is a value of `PyErr`; fallible code returns `Except PyErr _`.
* A patina `Option` object has exactly two reachable runtime states:
  class `Some` with the `_value` slot set, and class `None_` with the
  `_value` slot unset (a fresh `None_()` never sets it, `Some._take` deletes
  it before swapping the class to `None_`, and `None_._convert_to_some` sets
  it while swapping the class to `Some`).  `OptionP` is that state space.
* A Python `dict` is modelled as an insertion-ordered association list
  (`PyDict`); well-formed dicts have pairwise distinct keys.  Key equality is
  `DecidableEq`, standing for Python `__eq__`/`__hash__` agreement.
* A `Ref` into a map slot is the closure pair
  `(lambda: self._dict[key], lambda val: self._dict[key] = val)`; both
  closures are determined by the captured `key` and the (single, mutated in
  place) backing dict, so a map `Ref` is represented by its captured key and
  its behaviour by `refGet`/`refSet` applied to the dict current at call time.
-/

namespace Patina

/-- The Python exceptions raised by the embedded code: `AttributeError`
(reading an unset slot, carries the attribute name), `AssertionError`
(carries its message), and `KeyError` (raised by `dict.__getitem__` and
`dict.__delitem__`; the key payload is not tracked). -/
inductive PyErr where
  | attributeError (attr : String)
  | assertionError (msg : String)
  | keyError
  deriving DecidableEq, Repr

variable {α β ε : Type}

/-- Runtime state of a patina `Option` object: class `Some` (slot `_value`
set to `value`) or class `None_` (slot `_value` unset). -/
inductive OptionP (α : Type) where
  | Some (value : α)
  | None_
  deriving DecidableEq, Repr

/-- Runtime state of a patina `Result` object: class `Ok` or class `Err`;
both constructors set the `_value` slot in `__init__`. -/
inductive ResultP (α ε : Type) where
  | Ok (value : α)
  | Err (error : ε)
  deriving DecidableEq, Repr

/-- The runtime classes involved in `dependent_ord`'s
`type(other) is not type(self)` check. -/
inductive PyCls where
  | clsSome
  | clsNone
  | clsOk
  | clsErr
  deriving DecidableEq, Repr

/-- `type(x)` for an Option object. -/
def OptionP.cls : OptionP α → PyCls
  | .Some _ => .clsSome
  | .None_ => .clsNone

/-- The content of the `_value` slot of an Option object: set for `Some`,
unset for `None_` (so `getattr(x, "_value")` raises `AttributeError`). -/
def OptionP.slotValue : OptionP α → Option α
  | .Some v => some v
  | .None_ => none

/-- Result of one `__eq__` call under Python's rich-comparison protocol:
`NotImplemented`, a raised exception, or a boolean. -/
inductive CmpRes where
  | notImpl
  | raised (e : PyErr)
  | value (b : Bool)
  deriving DecidableEq, Repr

/-- `Option.__eq__` as installed by `dependent_ord("_value")`
(`_utils.py`): return `NotImplemented` when `type(other) is not type(self)`,
otherwise evaluate `getattr(self, "_value")` then `getattr(other, "_value")`
(each raising `AttributeError` when the slot is unset) and compare with
`operator.eq`. -/
def OptionP.dunderEq [DecidableEq α] (self other : OptionP α) : CmpRes :=
  if self.cls = other.cls then
    match self.slotValue with
    | none => .raised (.attributeError "_value")
    | some a =>
      match other.slotValue with
      | none => .raised (.attributeError "_value")
      | some b => .value (decide (a = b))
  else
    .notImpl

/-- `Result.__eq__` as installed by `dependent_ord("_value")`: both `Ok` and
`Err` set `_value` in `__init__`, so the `getattr` never raises; same class
compares payloads, different classes yield `NotImplemented`. -/
def ResultP.dunderEq [DecidableEq α] [DecidableEq ε] :
    ResultP α ε → ResultP α ε → CmpRes
  | .Ok a, .Ok b => .value (decide (a = b))
  | .Err a, .Err b => .value (decide (a = b))
  | _, _ => .notImpl

/-- CPython's `x == y` protocol over two distinct objects: try
`x.__eq__(y)`, on `NotImplemented` try `y.__eq__(x)`, and when both return
`NotImplemented` fall back to identity, which is `False` for distinct
objects.  (The fallback is only reachable here when the two classes differ,
hence only for distinct objects.) -/
def pyEqOption [DecidableEq α] (x y : OptionP α) : Except PyErr Bool :=
  match x.dunderEq y with
  | .raised e => .error e
  | .value b => .ok b
  | .notImpl =>
    match y.dunderEq x with
    | .raised e => .error e
    | .value b => .ok b
    | .notImpl => .ok false

/-- CPython's `x == y` protocol for two distinct `Result` objects. -/
def pyEqResult [DecidableEq α] [DecidableEq ε] (x y : ResultP α ε) :
    Except PyErr Bool :=
  match x.dunderEq y with
  | .raised e => .error e
  | .value b => .ok b
  | .notImpl =>
    match y.dunderEq x with
    | .raised e => .error e
    | .value b => .ok b
    | .notImpl => .ok false

/-- `Some._take` / `None_._take` (`option.py`): first component is the
returned Option, second is the state of `self` after the call.  `Some._take`
saves `_value`, deletes the slot, swaps the class to `None_` and returns
`Some(val)`; `None_._take` returns a fresh `None_()` leaving `self`
untouched. -/
def OptionP.take : OptionP α → OptionP α × OptionP α
  | .Some v => (.Some v, .None_)
  | .None_ => (.None_, .None_)

/-- `Some._replace` / `None_._replace`: first component is the returned
Option, second is the state of `self` after the call.  `Some._replace` swaps
the payload and returns `Some(old)`; `None_._replace` runs
`_convert_to_some(value)` (class swap to `Some`, slot set) and returns a
fresh `None_()`. -/
def OptionP.replace (self : OptionP α) (value : α) : OptionP α × OptionP α :=
  match self with
  | .Some old => (.Some old, .Some value)
  | .None_ => (.None_, .Some value)

/-- The fixed message of `None_._unwrap`'s `AssertionError`. -/
def unwrapNoneMsg : String := "called `Option.unwrap` on a `None_` value"

/-- `Some._unwrap` returns `self._value`; `None_._unwrap` raises
`AssertionError(unwrapNoneMsg)`. -/
def OptionP.unwrap : OptionP α → Except PyErr α
  | .Some v => .ok v
  | .None_ => .error (.assertionError unwrapNoneMsg)

/-- `Some._expect` returns the payload ignoring `msg`; `None_._expect`
raises `AssertionError(msg)`. -/
def OptionP.expect (self : OptionP α) (msg : String) : Except PyErr α :=
  match self with
  | .Some v => .ok v
  | .None_ => .error (.assertionError msg)

/-- `Option.from_optional` (`option.py`): the host nullable value is
`Option α` with `none` standing for Python `None`; `None` maps to `None_()`
and anything else to `Some(opt)`. -/
def from_optional : Option α → OptionP α
  | none => .None_
  | some v => .Some v

/-- `Some._into_optional` returns `self._value`; `None_._into_optional`
returns Python `None`. -/
def OptionP.into_optional : OptionP α → Option α
  | .Some v => some v
  | .None_ => none

/-- A Python `dict` as an insertion-ordered association list. -/
abbrev PyDict (K V : Type) : Type := List (K × V)

variable {K V : Type}

/-- `d.get(k, default-of-None)` projected through the sentinel pattern: the
module-private `_nothing = object()` sentinel is identity-distinct from
every storable value (including `None`, `0`, `""`, `False`), so
`d.get(key, _nothing)` followed by an `is _nothing` check is exactly an
`Option`-valued lookup. -/
def dictLookup [DecidableEq K] : PyDict K V → K → Option V
  | [], _ => none
  | (k2, v) :: rest, k => if k2 = k then some v else dictLookup rest k

/-- `d[k] = v`: update the existing entry in place (keeping its position),
or append a new entry at the end. -/
def dictInsert [DecidableEq K] : PyDict K V → K → V → PyDict K V
  | [], k, v => [(k, v)]
  | (k2, v2) :: rest, k, v =>
    if k2 = k then (k2, v) :: rest else (k2, v2) :: dictInsert rest k v

/-- `d.pop(k, sentinel)`: remove the entry for `k` (the first match; dicts
are keyed uniquely) and return its value, or report absence. -/
def dictPop [DecidableEq K] : PyDict K V → K → Option V × PyDict K V
  | [], _ => (none, [])
  | (k2, v) :: rest, k =>
    if k2 = k then (some v, rest)
    else
      let r := dictPop rest k
      (r.1, (k2, v) :: r.2)

/-- `del d[k]` once the key is known present: drop the entry for `k`. -/
def dictDel [DecidableEq K] (d : PyDict K V) (k : K) : PyDict K V :=
  d.filter (fun p => decide (p.1 ≠ k))

/-- `list(d)` / `d.keys()`: the keys in insertion order. -/
def dictKeys (d : PyDict K V) : List K := d.map Prod.fst

/-- `k in d`. -/
def dictMem [DecidableEq K] (d : PyDict K V) (k : K) : Bool :=
  (dictLookup d k).isSome

/-- Host-dict `del d[k]` (`dict.__delitem__`): raises `KeyError` when the
key is absent.  (Contrast with `HashMap.__delitem__` below.) -/
def pyDictDelRaw [DecidableEq K] (d : PyDict K V) (k : K) :
    Except PyErr (PyDict K V) :=
  match dictLookup d k with
  | none => .error .keyError
  | some _ => .ok (dictDel d k)

/-- Getter closure of a map-slot `Ref` (`lambda: self._dict[key]`), applied
to the dict current at call time: `dict.__getitem__` raises `KeyError` when
the slot is gone. -/
def refGet [DecidableEq K] (d : PyDict K V) (k : K) : Except PyErr V :=
  match dictLookup d k with
  | some v => .ok v
  | none => .error .keyError

/-- Setter closure of a map-slot `Ref` (`self._dict[key] = val`): a plain
store, which re-creates the entry when the slot was removed. -/
def refSet [DecidableEq K] (d : PyDict K V) (k : K) (v : V) : PyDict K V :=
  dictInsert d k v

/-- `HashMap.get`: sentinel lookup, wrapping the hit in `Some` and the miss
in `None_`. -/
def HashMap.get [DecidableEq K] (d : PyDict K V) (k : K) : OptionP V :=
  match dictLookup d k with
  | none => .None_
  | some v => .Some v

/-- `HashMap.contains_key` / `__contains__`: `key in self._dict`. -/
def HashMap.contains_key [DecidableEq K] (d : PyDict K V) (k : K) : Bool :=
  dictMem d k

/-- `HashMap.get_mut`: `None_()` when the key is absent, else `Some` of a
`Ref` whose closures are `refGet`/`refSet` at the captured key (the `Ref` is
represented by that key). -/
def HashMap.get_mut [DecidableEq K] (d : PyDict K V) (k : K) : OptionP K :=
  if dictMem d k then .Some k else .None_

/-- `HashMap.insert`: read the previous value through the sentinel pattern,
store the new one, return `Some(old)`/`None_` and the updated dict. -/
def HashMap.insert [DecidableEq K] (d : PyDict K V) (k : K) (v : V) :
    OptionP V × PyDict K V :=
  let result : OptionP V :=
    match dictLookup d k with
    | none => .None_
    | some old => .Some old
  (result, dictInsert d k v)

/-- `HashMap.remove`: `self._dict.pop(key, _nothing)`, wrapping the result. -/
def HashMap.remove [DecidableEq K] (d : PyDict K V) (k : K) :
    OptionP V × PyDict K V :=
  let r := dictPop d k
  match r.1 with
  | none => (.None_, r.2)
  | some v => (.Some v, r.2)

/-- `HashMap.__delitem__`: `self.remove(key)` with the returned Option
discarded; total, never raises. -/
def HashMap.delitem [DecidableEq K] (d : PyDict K V) (k : K) : PyDict K V :=
  (HashMap.remove d k).2

/-- The two classes an `entry(key)` call can produce, each capturing the key
(`self._key`) and viewing the single backing map. -/
inductive EntryP (K : Type) where
  | occupied (key : K)
  | vacant (key : K)
  deriving DecidableEq, Repr

/-- `HashMap.entry`: `OccupiedEntry` when `key in self` at call time, else
`VacantEntry`. -/
def HashMap.entry [DecidableEq K] (d : PyDict K V) (k : K) : EntryP K :=
  if dictMem d k then .occupied k else .vacant k

/-- `or_insert_with`, dispatched on the entry class, with the default
callable modelled as a state transformer `σ → V × σ` so that its invocations
are observable (the embedding threads the state exactly where the source
calls `default()`).  `OccupiedEntry.or_insert_with` returns
`self._make_value_ref()` without touching the callable or the map;
`VacantEntry.or_insert_with` runs `self._table.insert(self._key, default())`
and then returns `self._table._make_value_ref(self._key)`.  The result is
(captured key of the returned `Ref`, dict after the call, callable state
after the call). -/
def EntryP.or_insert_with {σ : Type} [DecidableEq K] :
    EntryP K → PyDict K V → (σ → V × σ) → σ → K × PyDict K V × σ
  | .occupied k, d, _, s => (k, d, s)
  | .vacant k, d, f, s =>
    let r := f s
    (k, (HashMap.insert d k r.1).2, r.2)

/-- `Entry.or_insert`: `self.or_insert_with(lambda: default)` — literally
`or_insert_with` applied to the constant callable. -/
def EntryP.or_insert [DecidableEq K] (e : EntryP K) (d : PyDict K V)
    (default : V) : K × PyDict K V :=
  let r := e.or_insert_with d (fun (s : Unit) => (default, s)) ()
  (r.1, r.2.1)

/-- One step of `HashMap.retain`'s loop body over the snapshot of keys:
`if not f(key, self._make_value_ref(key)): del self._dict[key]`.  The pure
predicate is modelled as a function of the key and the value it reads
through the `Ref`'s getter; a vanished key would make that getter raise
`KeyError`. -/
def retainGo [DecidableEq K] (f : K → V → Bool) :
    List K → PyDict K V → Except PyErr (PyDict K V × List K)
  | [], d => .ok (d, [])
  | k :: ks, d =>
    match dictLookup d k with
    | none => .error .keyError
    | some v =>
      let d2 := if f k v then d else dictDel d k
      match retainGo f ks d2 with
      | .error e => .error e
      | .ok r => .ok (r.1, k :: r.2)

/-- `HashMap.retain`: iterate over `list(self._dict)` — a snapshot of the
keys taken before any deletion — deleting the keys the predicate rejects.
Returns the final dict together with the trace of keys the predicate was
invoked on, in order. -/
def HashMap.retain [DecidableEq K] (f : K → V → Bool) (d : PyDict K V) :
    Except PyErr (PyDict K V × List K) :=
  retainGo f (dictKeys d) d

/-! Helper lemmas about the dict model. -/

theorem dictKeys_append (a b : PyDict K V) :
    dictKeys (a ++ b) = dictKeys a ++ dictKeys b :=
  List.map_append _ a b

theorem dictKeys_cons (k : K) (v : V) (d : PyDict K V) :
    dictKeys ((k, v) :: d) = k :: dictKeys d := rfl

theorem dictLookup_not_mem [DecidableEq K] {d : PyDict K V} {k : K}
    (h : k ∉ dictKeys d) : dictLookup d k = none := by
  induction d with
  | nil => rfl
  | cons p rest ih =>
    obtain ⟨k2, v⟩ := p
    rw [dictKeys_cons, List.mem_cons] at h
    push_neg at h
    simp only [dictLookup, if_neg (fun he : k2 = k => h.1 he.symm)]
    exact ih h.2

theorem dictLookup_append_right [DecidableEq K] {a : PyDict K V}
    (b : PyDict K V) {k : K} (h : k ∉ dictKeys a) :
    dictLookup (a ++ b) k = dictLookup b k := by
  induction a with
  | nil => rfl
  | cons p rest ih =>
    obtain ⟨k2, v⟩ := p
    rw [dictKeys_cons, List.mem_cons] at h
    push_neg at h
    simp only [List.cons_append, dictLookup,
      if_neg (fun he : k2 = k => h.1 he.symm)]
    exact ih h.2

theorem dictLookup_insert_self [DecidableEq K] (d : PyDict K V) (k : K)
    (v : V) : dictLookup (dictInsert d k v) k = some v := by
  induction d with
  | nil => simp [dictInsert, dictLookup]
  | cons p rest ih =>
    obtain ⟨k2, v2⟩ := p
    by_cases h : k2 = k
    · simp [dictInsert, dictLookup, h]
    · simp [dictInsert, dictLookup, h, ih]

theorem dictInsert_not_mem [DecidableEq K] {d : PyDict K V} {k : K}
    (v : V) (h : k ∉ dictKeys d) : dictInsert d k v = d ++ [(k, v)] := by
  induction d with
  | nil => rfl
  | cons p rest ih =>
    obtain ⟨k2, v2⟩ := p
    rw [dictKeys_cons, List.mem_cons] at h
    push_neg at h
    simp only [dictInsert, if_neg h.1.symm, List.cons_append, List.cons.injEq,
      true_and]
    exact ih h.2

theorem dictDel_append [DecidableEq K] (a b : PyDict K V) (k : K) :
    dictDel (a ++ b) k = dictDel a k ++ dictDel b k := by
  simp [dictDel, List.filter_append]

theorem dictDel_not_mem [DecidableEq K] {d : PyDict K V} {k : K}
    (h : k ∉ dictKeys d) : dictDel d k = d := by
  refine List.filter_eq_self.mpr (fun p hp => ?_)
  have : p.1 ∈ dictKeys d := List.mem_map_of_mem Prod.fst hp
  exact decide_eq_true (fun he => h (he ▸ this))

theorem dictDel_cons_self [DecidableEq K] (k : K) (v : V) (d : PyDict K V) :
    dictDel ((k, v) :: d) k = dictDel d k := by
  simp [dictDel, List.filter]

theorem dictPop_fst [DecidableEq K] (d : PyDict K V) (k : K) :
    (dictPop d k).1 = dictLookup d k := by
  induction d with
  | nil => rfl
  | cons p rest ih =>
    obtain ⟨k2, v⟩ := p
    by_cases h : k2 = k
    · simp [dictPop, dictLookup, h]
    · simp [dictPop, dictLookup, h, ih]

theorem dictPop_not_mem_snd [DecidableEq K] {d : PyDict K V} {k : K}
    (h : dictLookup d k = none) : (dictPop d k).2 = d := by
  induction d with
  | nil => rfl
  | cons p rest ih =>
    obtain ⟨k2, v⟩ := p
    by_cases he : k2 = k
    · simp [dictLookup, he] at h
    · simp only [dictLookup, if_neg he] at h
      simp [dictPop, he, ih h]

theorem dictPop_snd_lookup_self [DecidableEq K] {d : PyDict K V} {k : K}
    (hnd : (dictKeys d).Nodup) : dictLookup (dictPop d k).2 k = none := by
  induction d with
  | nil => rfl
  | cons p rest ih =>
    obtain ⟨k2, v⟩ := p
    rw [dictKeys_cons, List.nodup_cons] at hnd
    by_cases he : k2 = k
    · subst he
      simp only [dictPop, if_pos rfl]
      exact dictLookup_not_mem hnd.1
    · simp only [dictPop, if_neg he, dictLookup, if_neg he]
      exact ih hnd.2

/-- Invariant of `retain`'s loop: processing the snapshot keys of the suffix
`m` while the already-processed prefix `pre` (whose keys are disjoint from
the snapshot) sits in front.  Every snapshot key is still present when
visited, the predicate is invoked on each exactly once with its original
value, and the suffix ends up filtered. -/
theorem retainGo_spec [DecidableEq K] (f : K → V → Bool) (m : PyDict K V) :
    ∀ pre : PyDict K V, (dictKeys m).Nodup →
      (∀ a ∈ dictKeys m, a ∉ dictKeys pre) →
      retainGo f (dictKeys m) (pre ++ m)
        = .ok (pre ++ List.filter (fun p => f p.1 p.2) m, dictKeys m) := by
  induction m with
  | nil =>
    intro pre _ _
    simp [retainGo, dictKeys]
  | cons p rest ih =>
    obtain ⟨k, v⟩ := p
    intro pre hnd hdisj
    rw [dictKeys_cons] at hnd hdisj ⊢
    rw [List.nodup_cons] at hnd
    have hkpre : k ∉ dictKeys pre := hdisj k (List.mem_cons_self k _)
    have hkrest : k ∉ dictKeys rest := hnd.1
    have hlook : dictLookup (pre ++ (k, v) :: rest) k = some v := by
      rw [dictLookup_append_right _ hkpre]
      simp [dictLookup]
    simp only [retainGo, hlook]
    by_cases hf : f k v
    · have hpre2 : ∀ a ∈ dictKeys rest, a ∉ dictKeys (pre ++ [(k, v)]) := by
        intro a ha
        rw [dictKeys_append, List.mem_append]
        rintro (h1 | h1)
        · exact hdisj a (List.mem_cons_of_mem _ ha) h1
        · simp only [dictKeys, List.map_cons, List.map_nil,
            List.mem_singleton] at h1
          exact hkrest (h1 ▸ ha)
      have hrec := ih (pre ++ [(k, v)]) hnd.2 hpre2
      rw [List.append_assoc, List.singleton_append] at hrec
      rw [if_pos hf, hrec]
      simp [List.filter, hf]
    · have hdel : dictDel (pre ++ (k, v) :: rest) k = pre ++ rest := by
        rw [dictDel_append, dictDel_cons_self, dictDel_not_mem hkpre,
          dictDel_not_mem hkrest]
      have hpre2 : ∀ a ∈ dictKeys rest, a ∉ dictKeys pre := fun a ha =>
        hdisj a (List.mem_cons_of_mem _ ha)
      have hrec := ih pre hnd.2 hpre2
      rw [if_neg hf, hdel, hrec]
      simp only [List.filter]
      rw [Bool.not_eq_true] at hf
      rw [hf]

theorem remove_snd [DecidableEq K] (d : PyDict K V) (k : K) :
    (HashMap.remove d k).2 = (dictPop d k).2 := by
  rcases h : dictPop d k with ⟨r1, r2⟩
  cases r1 <;> simp [HashMap.remove, h]

theorem remove_fst [DecidableEq K] (d : PyDict K V) (k : K) :
    (HashMap.remove d k).1
      = match dictLookup d k with
        | none => OptionP.None_
        | some v => OptionP.Some v := by
  have hp := dictPop_fst d k
  rcases h : dictPop d k with ⟨r1, r2⟩
  rw [h] at hp
  rw [← hp]
  cases r1 <;> simp [HashMap.remove, h]

/-! Claim theorems. -/

/-- Claim C1 (code_bug evidence): the equality contract holds for `Some`
payload comparisons, cross-variant comparisons and all `Result`
comparisons, but at the claim's own example `None_() == None_()` the
`dependent_ord`-generated `__eq__` reads the unset `_value` slot of
`None_` and raises `AttributeError` instead of returning `True`. -/
theorem c1_equality_behaviour :
    pyEqOption (.None_ : OptionP Nat) .None_
        = .error (.attributeError "_value")
  ∧ pyEqOption (.Some 2 : OptionP Nat) (.Some 2) = .ok true
  ∧ pyEqOption (.Some 2 : OptionP Nat) (.Some 3) = .ok false
  ∧ pyEqOption (.Some 2 : OptionP Nat) .None_ = .ok false
  ∧ pyEqOption (.None_ : OptionP Nat) (.Some 2) = .ok false
  ∧ pyEqResult (.Ok 2 : ResultP Nat Nat) (.Ok 2) = .ok true
  ∧ pyEqResult (.Ok 2 : ResultP Nat Nat) (.Ok 3) = .ok false
  ∧ pyEqResult (.Ok 2 : ResultP Nat Nat) (.Err 2) = .ok false
  ∧ pyEqResult (.Err 2 : ResultP Nat Nat) (.Err 2) = .ok true
  ∧ pyEqResult (.Err 2 : ResultP Nat Nat) (.Err 3) = .ok false :=
  ⟨rfl, rfl, rfl, rfl, rfl, rfl, rfl, rfl, rfl, rfl⟩

/-- Claim C2 counterexample: build `{1: 10}`, obtain the slot `Ref` for
key 1 and remove the key; the stale `Ref`'s setter then raises nothing and
silently re-creates the entry `1 ↦ 99`, so the map does not stay without
the key as the claim requires. -/
theorem c2_counterexample :
    (HashMap.remove ([(1, 10)] : PyDict Nat Nat) 1).2 = []
  ∧ refSet ((HashMap.remove ([(1, 10)] : PyDict Nat Nat) 1).2) 1 99
      = [(1, 99)]
  ∧ HashMap.contains_key
      (refSet ((HashMap.remove ([(1, 10)] : PyDict Nat Nat) 1).2) 1 99) 1
      = true :=
  ⟨rfl, rfl, rfl⟩

/-- Claim C2 (amended): for a key `k` present in a well-formed map, the
`Ref` produced by `get_mut` (the same closures as `_make_value_ref`, hence
as Entry/`values_mut`/`iter_mut` refs) behaves after `remove(k)` as
follows: its getter raises `KeyError` (it does fail loudly), but its setter
raises nothing and silently re-creates the entry `k ↦ w`. -/
theorem c2_stale_ref [DecidableEq K] (d : PyDict K V) (k : K) (v w : V)
    (hnd : (dictKeys d).Nodup) (h : dictLookup d k = some v) :
    HashMap.get_mut d k = .Some k
  ∧ dictLookup (HashMap.remove d k).2 k = none
  ∧ refGet (HashMap.remove d k).2 k = .error .keyError
  ∧ dictLookup (refSet (HashMap.remove d k).2 k w) k = some w
  ∧ HashMap.contains_key (refSet (HashMap.remove d k).2 k w) k = true := by
  have hgone : dictLookup (HashMap.remove d k).2 k = none := by
    rw [remove_snd]
    exact dictPop_snd_lookup_self hnd
  refine ⟨?_, hgone, ?_, ?_, ?_⟩
  · simp [HashMap.get_mut, dictMem, h]
  · simp [refGet, hgone]
  · simp [refSet, dictLookup_insert_self]
  · simp [HashMap.contains_key, dictMem, refSet, dictLookup_insert_self]

/-- Claim C2 witness: the amended statement at the concrete map `{1: 10}`,
key 1, written value 99. -/
theorem c2_stale_ref_witness :
    HashMap.get_mut ([(1, 10)] : PyDict Nat Nat) 1 = .Some 1
  ∧ dictLookup (HashMap.remove ([(1, 10)] : PyDict Nat Nat) 1).2 1 = none
  ∧ refGet (HashMap.remove ([(1, 10)] : PyDict Nat Nat) 1).2 1
      = .error .keyError
  ∧ dictLookup
      (refSet (HashMap.remove ([(1, 10)] : PyDict Nat Nat) 1).2 1 99) 1
      = some 99
  ∧ HashMap.contains_key
      (refSet (HashMap.remove ([(1, 10)] : PyDict Nat Nat) 1).2 1 99) 1
      = true :=
  c2_stale_ref [(1, 10)] 1 10 99 (by decide) rfl

/-- Claim C3: `take` on `Some(v)` returns `Some(v)` and mutates `self` to
`None_`; a second `take` on the resulting state returns `None_` and leaves
it `None_`; `take` on an already-`None_` option returns `None_` and leaves
it `None_`. -/
theorem c3_take (v : α) :
    OptionP.take (.Some v) = (.Some v, .None_)
  ∧ OptionP.take ((OptionP.take (.Some v : OptionP α)).2) = (.None_, .None_)
  ∧ OptionP.take (.None_ : OptionP α) = (.None_, .None_) :=
  ⟨rfl, rfl, rfl⟩

/-- Claim C4: with the default callable instrumented as a call counter,
`entry(k).or_insert_with(f)` on a map containing `k` leaves the map and the
counter untouched and returns a `Ref` whose getter reads the existing
value; on a map without `k` it bumps the counter exactly once, stores the
produced value under `k`, and returns a `Ref` reading that new slot; and
`or_insert(default)` is literally `or_insert_with` of the constant
callable. -/
theorem c4_or_insert_with [DecidableEq K] (d : PyDict K V) (k : K)
    (g : Nat → V) (n : Nat) :
    (∀ v0, dictLookup d k = some v0 →
        EntryP.or_insert_with (HashMap.entry d k) d (fun m => (g m, m + 1)) n
            = (k, d, n)
          ∧ refGet d k = .ok v0)
  ∧ (dictLookup d k = none →
        EntryP.or_insert_with (HashMap.entry d k) d (fun m => (g m, m + 1)) n
            = (k, dictInsert d k (g n), n + 1)
          ∧ refGet (dictInsert d k (g n)) k = .ok (g n))
  ∧ ∀ v : V,
      EntryP.or_insert (HashMap.entry d k) d v
        = ((EntryP.or_insert_with (HashMap.entry d k) d
              (fun (s : Unit) => (v, s)) ()).1,
           (EntryP.or_insert_with (HashMap.entry d k) d
              (fun (s : Unit) => (v, s)) ()).2.1) := by
  refine ⟨fun v0 h => ⟨?_, ?_⟩, fun h => ⟨?_, ?_⟩, fun v => rfl⟩
  · simp [HashMap.entry, dictMem, h, EntryP.or_insert_with]
  · simp [refGet, h]
  · simp [HashMap.entry, dictMem, h, EntryP.or_insert_with, HashMap.insert]
  · simp [refGet, dictLookup_insert_self]

/-- Claim C4 witness: occupied case on `{1: 10}` (callable never invoked,
map unchanged) and vacant case on `{}` (callable invoked once, value
stored). -/
theorem c4_witness :
    EntryP.or_insert_with (HashMap.entry ([(1, 10)] : PyDict Nat Nat) 1)
        [(1, 10)] (fun m => (42, m + 1)) 0 = (1, [(1, 10)], 0)
  ∧ EntryP.or_insert_with (HashMap.entry ([] : PyDict Nat Nat) 1) []
        (fun m => (42, m + 1)) 0 = (1, [(1, 42)], 1) :=
  ⟨((c4_or_insert_with [(1, 10)] 1 (fun _ => 42) 0).1 10 (by decide)).1,
   ((c4_or_insert_with [] 1 (fun _ => 42) 0).2.1 (by decide)).1⟩

/-- Claim C5: on a map with distinct keys, `retain(f)` invokes the
predicate exactly once per key present at the start (the trace is exactly
the snapshot of the original keys, in order, with no skip or double visit
despite the in-loop deletions), never hits a vanished slot, and leaves
exactly the pairs the predicate accepted. -/
theorem c5_retain [DecidableEq K] (f : K → V → Bool) (d : PyDict K V)
    (hnd : (dictKeys d).Nodup) :
    HashMap.retain f d
      = .ok (List.filter (fun p => f p.1 p.2) d, dictKeys d) := by
  have h := retainGo_spec f d [] hnd (fun a _ ha => (List.not_mem_nil a) ha)
  simpa [HashMap.retain] using h

/-- Claim C5 witness: the claim's own example — retaining the even keys of
`{0: 0, 1: 10, ..., 7: 70}` visits keys 0..7 once each and leaves exactly
the four even-keyed pairs. -/
theorem c5_retain_witness :
    HashMap.retain (fun (k : Nat) (_ : Nat) => k % 2 == 0)
        [(0, 0), (1, 10), (2, 20), (3, 30), (4, 40), (5, 50), (6, 60),
          (7, 70)]
      = .ok ([(0, 0), (2, 20), (4, 40), (6, 60)], [0, 1, 2, 3, 4, 5, 6, 7])
  ∧ ([(0, 0), (2, 20), (4, 40), (6, 60)] : PyDict Nat Nat).length = 4 :=
  ⟨(c5_retain (fun k _ => k % 2 == 0)
      [(0, 0), (1, 10), (2, 20), (3, 30), (4, 40), (5, 50), (6, 60),
        (7, 70)] (by decide)).trans rfl,
   rfl⟩

/-- Claim C6: `replace(v2)` on `Some(v1)` returns `Some(v1)` and mutates
`self` to `Some(v2)`; on `None_` it returns `None_` and mutates `self` to
`Some(v2)`. -/
theorem c6_replace (v1 v2 : α) :
    OptionP.replace (.Some v1) v2 = (.Some v1, .Some v2)
  ∧ OptionP.replace (.None_ : OptionP α) v2 = (.None_, .Some v2) :=
  ⟨rfl, rfl⟩

/-- Claim C7: `Some(v).unwrap()` returns `v` without raising;
`None_().unwrap()` always fails with the unwrap-error kind — an
`AssertionError` carrying the fixed message identifying an unwrap of an
empty optional — which is distinguishable from the other error kinds the
library raises. -/
theorem c7_unwrap (v : α) :
    OptionP.unwrap (.Some v) = .ok v
  ∧ OptionP.unwrap (.None_ : OptionP α)
      = .error (.assertionError unwrapNoneMsg)
  ∧ unwrapNoneMsg = "called `Option.unwrap` on a `None_` value"
  ∧ PyErr.assertionError unwrapNoneMsg ≠ .keyError
  ∧ PyErr.assertionError unwrapNoneMsg ≠ .attributeError "_value" :=
  ⟨rfl, rfl, rfl, by decide, by decide⟩

/-- Claim C8: `Option.from_optional` maps the host null to `None_` and any
value `v` to `Some(v)`, `into_optional` maps them back, and the round trip
`from_optional(x).into_optional() == x` holds for every nullable input. -/
theorem c8_round_trip (x : Option α) :
    (from_optional x).into_optional = x
  ∧ from_optional (none : Option α) = .None_
  ∧ (∀ v : α, from_optional (some v) = .Some v)
  ∧ OptionP.into_optional (.None_ : OptionP α) = none
  ∧ ∀ v : α, OptionP.into_optional (.Some v) = some v := by
  refine ⟨?_, rfl, fun v => rfl, rfl, fun v => rfl⟩
  cases x <;> rfl

/-- Claim C9: presence is decided by the sentinel-guarded key lookup, never
by the stored value: after `insert(k, v)` with an arbitrary value `v`
(falsy host values included), `get(k)` is `Some(v)`, `contains_key(k)` is
true, a second `insert(k, v2)` reports the previous value as `Some(v)`, and
`remove(k)` reports the removed value as `Some(v)`. -/
theorem c9_presence [DecidableEq K] (d : PyDict K V) (k : K) (v v2 : V) :
    HashMap.get (HashMap.insert d k v).2 k = .Some v
  ∧ HashMap.contains_key (HashMap.insert d k v).2 k = true
  ∧ (HashMap.insert (HashMap.insert d k v).2 k v2).1 = .Some v
  ∧ (HashMap.remove (HashMap.insert d k v).2 k).1 = .Some v := by
  have hl : dictLookup (dictInsert d k v) k = some v :=
    dictLookup_insert_self d k v
  refine ⟨?_, ?_, ?_, ?_⟩
  · simp [HashMap.get, HashMap.insert, hl]
  · simp [HashMap.contains_key, dictMem, HashMap.insert, hl]
  · simp [HashMap.insert, hl]
  · rw [remove_fst]
    simp [HashMap.insert, hl]

/-- Claim C10: `del m[k]` (`HashMap.__delitem__`) discards the Option
returned by `remove`, so on an absent key it is a silent no-op (while the
host dict's own `del` raises `KeyError`), and for every key it equals
`remove(k)` with the result discarded. -/
theorem c10_delitem [DecidableEq K] (d : PyDict K V) (k : K) :
    (dictLookup d k = none →
        HashMap.delitem d k = d ∧ pyDictDelRaw d k = .error .keyError)
  ∧ HashMap.delitem d k = (HashMap.remove d k).2 := by
  refine ⟨fun h => ⟨?_, ?_⟩, rfl⟩
  · rw [HashMap.delitem, remove_snd]
    exact dictPop_not_mem_snd h
  · simp [pyDictDelRaw, h]

/-- Claim C10 witness: deleting the absent key 2 from `{1: 10}` raises
nothing and leaves the map unchanged, where the host dict's `del` raises
`KeyError`. -/
theorem c10_delitem_witness :
    HashMap.delitem ([(1, 10)] : PyDict Nat Nat) 2 = [(1, 10)]
  ∧ pyDictDelRaw ([(1, 10)] : PyDict Nat Nat) 2 = .error .keyError :=
  (c10_delitem [(1, 10)] 2).1 rfl

end Patina
